import Mathlib

/-!
Verification of the update-coalescing and scene-ingestion logic of
`src/pages/ClientIsoCardWatcher.tsx` (repository `openfluke/icfront`).

The component is shallowly embedded: parsed JSON payloads are values of
`JValue`; JavaScript `Map`s are association lists with JS `Map.set`
semantics (`mset`/`mget`); the mutable THREE.js object graph is a store
`Nat → Obj3D` of object states addressed by identity; and the React
component instance is a record `St`.  Numeric payload values are
rationals (JSON numbers); the only irrational produced by the code is
`Math.PI` in the degrees-to-radians conversion, which is represented
exactly by pairs `a + b·π` (`RVal`).

Domain conventions (each noted again at the definition it concerns):
* payload fields, where present, are well-typed per the component's
  declared TypeScript types (`OneUpdate`); a field holding JSON `null`
  or a value of the wrong type is treated as absent, matching the
  nullish/falsy checks the code performs on every consumed field;
* the external libraries (THREE.js, IsoCard) are modelled only at the
  boundary the component observes: object name/parent/type lookups,
  `getObjectByName` as first match in traversal order, and the
  IsoCard object-entry list.
-/

/-- A parsed JSON value (the result of `JSON.parse` in `onMessage`,
line 223 of the source).  Object fields are kept in insertion order. -/
inductive JValue where
  | null
  | bool (b : Bool)
  | num (q : ℚ)
  | str (s : String)
  | arr (xs : List JValue)
  | obj (fs : List (String × JValue))

/-- Association-list map with JavaScript `Map` semantics: `mset` updates
an existing key in place (keys are unique in a JS `Map`) and appends a
fresh key; `mget` returns the bound value. -/
def mset {K V : Type} [DecidableEq K] : List (K × V) → K → V → List (K × V)
  | [], k, v => [(k, v)]
  | a :: m, k, v => if a.1 = k then (k, v) :: m else a :: mset m k v

/-- Lookup in an association-list map (JavaScript `Map.get` /
property access on a parsed JSON object). -/
def mget {K V : Type} [DecidableEq K] (m : List (K × V)) (k : K) : Option V :=
  (m.find? (fun p => p.1 = k)).map (·.2)

/-- Field access `o.f` on a parsed JSON value: `none` when the receiver
is not an object or lacks the field (JS `undefined`). -/
def jget (v : JValue) (k : String) : Option JValue :=
  match v with
  | .obj fs => mget fs k
  | _ => none

/-- JS nullish coalescing on a field-access result: a present JSON
`null` behaves like an absent field on the left of an `a ?? b`. -/
def jnn (v : Option JValue) : Option JValue :=
  match v with
  | some .null => none
  | x => x

/-- JS truthiness of a JSON value (`!v` tests in the source): `null`,
`false`, `0` and the empty string are falsy. -/
def jFalsy : JValue → Bool
  | .null => true
  | .bool b => !b
  | .num q => q = 0
  | .str s => s = ""
  | .arr _ => false
  | .obj _ => false

/-- A `Map` key of the component's `pending`/`objectIndex` maps:
`string | number` (source line 55 and 63). -/
inductive Key where
  | s (s : String)
  | n (n : ℚ)
deriving DecidableEq

/-- `id` field of a tolerant payload entry: `string | number`, with JSON
`null` and other types treated as absent (the code filters `id` with
nullish checks only; non-`string|number` ids are outside the declared
`OneUpdate` type). -/
def jKey? : Option JValue → Option Key
  | some (.str s) => some (.s s)
  | some (.num q) => some (.n q)
  | _ => none

/-- A string-typed field (`name`, `layerId`): present only when it is a
JSON string, per the declared types. -/
def jStr? : Option JValue → Option String
  | some (.str s) => some s
  | _ => none

/-- A number-typed field. -/
def jNum? : Option JValue → Option ℚ
  | some (.num q) => some q
  | _ => none

/-- An array-of-numbers field (`rot`, `eulerDeg`); the length is kept so
that the length tests of `applyOneUpdateTo` (source lines 314, 317, 321)
remain faithful. -/
def jNums? : Option JValue → Option (List ℚ)
  | some (.arr xs) => xs.mapM (fun v => match v with | .num q => some q | _ => none)
  | _ => none

/-- The `position` / `rotation` sub-objects `{x, y, z}` / `{x, y, z, w}`. -/
def jVec3? (v : Option JValue) : Option (ℚ × ℚ × ℚ) :=
  match v with
  | some (.obj fs) =>
    match jNum? (mget fs "x"), jNum? (mget fs "y"), jNum? (mget fs "z") with
    | some x, some y, some z => some (x, y, z)
    | _, _, _ => none
  | _ => none

/-- The `rotation` quaternion object `{x, y, z, w}`. -/
def jQuat? (v : Option JValue) : Option (ℚ × ℚ × ℚ × ℚ) :=
  match v with
  | some (.obj fs) =>
    match jNum? (mget fs "x"), jNum? (mget fs "y"), jNum? (mget fs "z"), jNum? (mget fs "w") with
    | some x, some y, some z, some w => some (x, y, z, w)
    | _, _, _, _ => none
  | _ => none

/-- The `pos` field, declared `[number, number, number]`. -/
def jTriple? (v : Option JValue) : Option (ℚ × ℚ × ℚ) :=
  match jNums? v with
  | some [x, y, z] => some (x, y, z)
  | _ => none

/-- The projection of a tolerant server payload entry onto the fields the
component consumes — the `OneUpdate` type of the source (lines 8–21).
Each field is `none` when absent (JS `undefined`). -/
structure OneUpdate where
  id : Option Key := none
  name : Option String := none
  position : Option (ℚ × ℚ × ℚ) := none
  rotation : Option (ℚ × ℚ × ℚ × ℚ) := none
  pos : Option (ℚ × ℚ × ℚ) := none
  rot : Option (List ℚ) := none
  eulerDeg : Option (List ℚ) := none
  layerId : Option String := none
deriving DecidableEq

/-- Reading the `OneUpdate` fields off a JSON value (property accesses
such as `it.id`, `u.position` in the source); non-objects have no
fields, matching JS property access on primitives. -/
def decodeOne (j : JValue) : OneUpdate :=
  { id := jKey? (jget j "id")
    name := jStr? (jget j "name")
    position := jVec3? (jget j "position")
    rotation := jQuat? (jget j "rotation")
    pos := jTriple? (jget j "pos")
    rot := jNums? (jget j "rot")
    eulerDeg := jNums? (jget j "eulerDeg")
    layerId := jStr? (jget j "layerId") }

/-- The key under which an entry is buffered: `u.id ?? u.name`
(source line 356). -/
def keyOf (u : OneUpdate) : Option Key :=
  u.id <|> u.name.map Key.s

/-- The default for a previously unbuffered key:
`{ id: u.id, name: u.name }` (source line 357). -/
def seed (u : OneUpdate) : OneUpdate :=
  { id := u.id, name := u.name }

/-- The buffered pending map (source line 63). -/
abbrev Pending : Type := List (Key × OneUpdate)

/-- `{ ...prev, ...u }` (source line 358) for an array-form entry
`u = { ...it, layerId: it.layerId ?? defaultLayerId }` (line 344).
In such an entry every key of `it` is present exactly when the
corresponding decoded field is `some`, so those fields override only
when present; the `layerId` key, however, is written explicitly in the
object literal and is therefore always present (possibly with value
`undefined`), so the spread always takes it from `u`. -/
def mergeA (prev u : OneUpdate) : OneUpdate :=
  { id := u.id <|> prev.id
    name := u.name <|> prev.name
    position := u.position <|> prev.position
    rotation := u.rotation <|> prev.rotation
    pos := u.pos <|> prev.pos
    rot := u.rot <|> prev.rot
    eulerDeg := u.eulerDeg <|> prev.eulerDeg
    layerId := u.layerId }

/-- `{ ...prev, ...u }` (source line 358) for a record-form entry
`u = { ...(o || {}), id: o?.id, name: o?.name ?? key, layerId: ... }`
(line 349): here the `id`, `name` and `layerId` keys are all written
explicitly in the literal, hence always present in `u` and always taken
from `u` by the spread, while the remaining fields override only when
present in `o`. -/
def mergeR (prev u : OneUpdate) : OneUpdate :=
  { id := u.id
    name := u.name
    position := u.position <|> prev.position
    rotation := u.rotation <|> prev.rotation
    pos := u.pos <|> prev.pos
    rot := u.rot <|> prev.rot
    eulerDeg := u.eulerDeg <|> prev.eulerDeg
    layerId := u.layerId }

/-- The entries pushed onto `arr` for an array-form batch (source lines
339–345): falsy items are skipped, an item with neither `id` nor `name`
is skipped, and `layerId` defaults to the batch's `defaultLayerId`. -/
def mkArrayEntries (items : List JValue) (d : Option String) : List OneUpdate :=
  items.filterMap (fun it =>
    if jFalsy it then none
    else
      let u := decodeOne it
      match keyOf u with
      | none => none
      | some _ => some { u with layerId := u.layerId <|> d })

/-- The entries pushed onto `arr` for a record-form batch (source lines
346–350): every record key produces an entry, the record key serving as
the `name` when the entry has none. -/
def mkRecordEntries (fs : List (String × JValue)) (d : Option String) : List OneUpdate :=
  fs.map (fun p =>
    let u := decodeOne p.2
    { u with name := u.name <|> some p.1, layerId := u.layerId <|> d })

/-- The buffering loop of `enqueuePhysics` (source lines 355–359):
each entry is merged into `pending` under its key. -/
def enqueueFold (merge : OneUpdate → OneUpdate → OneUpdate)
    (p : Pending) (us : List OneUpdate) : Pending :=
  us.foldl (fun p u =>
    match keyOf u with
    | none => p
    | some k => mset p k (merge ((mget p k).getD (seed u)) u)) p

/-- The effect of `enqueuePhysics` (source lines 336–359) on the pending
map: array-form and record-form batches are buffered, anything else is
ignored (`else return`, line 352). -/
def enqueuePhysicsPending (p : Pending) (objects : JValue) (d : Option String) : Pending :=
  match objects with
  | .arr items => enqueueFold mergeA p (mkArrayEntries items d)
  | .obj fs => enqueueFold mergeR p (mkRecordEntries fs d)
  | _ => p

theorem mget_mset {K V : Type} [DecidableEq K] (m : List (K × V)) (k k2 : K) (v : V) :
    mget (mset m k v) k2 = if k2 = k then some v else mget m k2 := by
  induction m with
  | nil =>
    by_cases h : k2 = k
    · subst h; simp [mset, mget]
    · simp [mset, mget, h, Ne.symm h]
  | cons a m ih =>
    by_cases ha : a.1 = k
    · by_cases h : k2 = k
      · subst h; simp [mset, mget, ha]
      · have hak2 : ¬ a.1 = k2 := by rw [ha]; exact Ne.symm h
        simp [mset, mget, ha, h, Ne.symm h, hak2]
    · by_cases hak : a.1 = k2
      · have h : ¬ k2 = k := fun hh => ha (by rw [hak]; exact hh)
        simp [mset, mget, ha, hak, h]
      · have h1 := ih
        simp only [mget] at h1
        simp [mset, mget, ha, hak, h1]

/-- Projection of the buffering loop to a single key: only the entries
keyed `k` contribute, in order, each merged onto the value buffered so
far (seeded from the first such entry when the key was unbuffered). -/
theorem mget_enqueueFold (merge : OneUpdate → OneUpdate → OneUpdate)
    (p : Pending) (us : List OneUpdate) (k : Key) :
    mget (enqueueFold merge p us) k =
      (us.filter (fun u => keyOf u = some k)).foldl
        (fun a u => some (merge (a.getD (seed u)) u)) (mget p k) := by
  induction us generalizing p with
  | nil => simp [enqueueFold]
  | cons u us ih =>
    cases hk : keyOf u with
    | none =>
      have : (decide (keyOf u = some k)) = false := by simp [hk]
      simp only [enqueueFold, List.foldl_cons, List.filter_cons, this, hk]
      exact ih p
    | some k1 =>
      by_cases hkk : k1 = k
      · subst hkk
        have : (decide (keyOf u = some k1)) = true := by simp [hk]
        simp only [enqueueFold, List.foldl_cons, List.filter_cons, this, hk,
          if_true, cond_true]
        have h2 := ih (mset p k1 (merge ((mget p k1).getD (seed u)) u))
        simp only [enqueueFold] at h2
        rw [h2, mget_mset]
        simp
      · have : (decide (keyOf u = some k)) = false := by simp [hk, hkk]
        simp only [enqueueFold, List.foldl_cons, List.filter_cons, this, hk, cond_false]
        have h2 := ih (mset p k1 (merge ((mget p k1).getD (seed u)) u))
        simp only [enqueueFold] at h2
        rw [h2, mget_mset]
        simp [Ne.symm hkk, hkk]

/-- Overlay merge following the claim's own words, not the code: every
field of the newest update overrides the buffered one exactly when
present and is retained exactly when absent.  Stated only to compare
the code's merge against the claimed one. -/
def mergeSpec (prev u : OneUpdate) : OneUpdate :=
  { id := u.id <|> prev.id
    name := u.name <|> prev.name
    position := u.position <|> prev.position
    rotation := u.rotation <|> prev.rotation
    pos := u.pos <|> prev.pos
    rot := u.rot <|> prev.rot
    eulerDeg := u.eulerDeg <|> prev.eulerDeg
    layerId := u.layerId <|> prev.layerId }

/-- C1: the claim fails on the code.  Concretely: with
`{ id: "a", layerId: "L" }` already buffered, enqueueing the array-form
batch `[{ id: "a", pos: [1,2,3] }]` with no batch default layer yields a
buffered entry whose `layerId` is absent, whereas overlaying per the
claim ("fields absent from the newest update are retained") would keep
`layerId = "L"`: the object spread in the source always rewrites
`layerId` because the key is written explicitly in the entry literal. -/
theorem enqueuePhysics_not_mergeSpec :
    (mkArrayEntries [.obj [("id", .str "a"), ("pos", .arr [.num 1, .num 2, .num 3])]] none
      = [{ id := some (.s "a"), pos := some (1, 2, 3) }])
    ∧ enqueuePhysicsPending [(Key.s "a", { id := some (.s "a"), layerId := some "L" })]
        (.arr [.obj [("id", .str "a"), ("pos", .arr [.num 1, .num 2, .num 3])]]) none
      ≠ mset [(Key.s "a", { id := some (.s "a"), layerId := some "L" })] (Key.s "a")
          (mergeSpec
            ((mget ([(Key.s "a", { id := some (.s "a"), layerId := some "L" })] : Pending)
                (Key.s "a")).getD
              (seed { id := some (.s "a"), pos := some (1, 2, 3) }))
            { id := some (.s "a"), pos := some (1, 2, 3) })
    ∧ ((mget (enqueuePhysicsPending
          [(Key.s "a", { id := some (.s "a"), layerId := some "L" })]
          (.arr [.obj [("id", .str "a"), ("pos", .arr [.num 1, .num 2, .num 3])]]) none)
          (Key.s "a")).map (fun u => u.layerId) = some none) := by
  refine ⟨by decide, by decide, by decide⟩

/-- C1 (amended): `enqueuePhysics` buffers updates keyed by id, else
name (record keys serving as names for record-form entries lacking one);
array-form entries with neither id nor name are dropped; and per key the
pending map is overlaid in order so that the newest entry's present
`position`/`rotation`/`pos`/`rot`/`eulerDeg` fields (and, for array
form, `id` and `name`) override while its absent ones are retained —
except that `layerId` is always replaced by the newest entry's effective
layer (its own, else the batch default, possibly absent), and
record-form entries also always replace `id` and `name`. -/
theorem enqueuePhysics_per_key (p : Pending) (d : Option String) (k : Key) :
    (∀ items, mget (enqueuePhysicsPending p (.arr items) d) k =
        ((mkArrayEntries items d).filter (fun u => keyOf u = some k)).foldl
          (fun a u => some (mergeA (a.getD (seed u)) u)) (mget p k))
    ∧ (∀ fs, mget (enqueuePhysicsPending p (.obj fs) d) k =
        ((mkRecordEntries fs d).filter (fun u => keyOf u = some k)).foldl
          (fun a u => some (mergeR (a.getD (seed u)) u)) (mget p k))
    ∧ (∀ items u, u ∈ mkArrayEntries items d → (keyOf u).isSome)
    ∧ (∀ fs u, u ∈ mkRecordEntries fs d → (keyOf u).isSome)
    ∧ (∀ v, (∀ items, v ≠ .arr items) → (∀ fs, v ≠ .obj fs) →
        enqueuePhysicsPending p v d = p) := by
  refine ⟨?_, ?_, ?_, ?_, ?_⟩
  · intro items
    simpa [enqueuePhysicsPending] using
      mget_enqueueFold mergeA p (mkArrayEntries items d) k
  · intro fs
    simpa [enqueuePhysicsPending] using
      mget_enqueueFold mergeR p (mkRecordEntries fs d) k
  · intro items u hu
    simp only [mkArrayEntries, List.mem_filterMap] at hu
    obtain ⟨it, _, hit⟩ := hu
    by_cases hf : jFalsy it
    · simp [hf] at hit
    · simp only [hf, Bool.false_eq_true, if_false] at hit
      cases hk : keyOf (decodeOne it) with
      | none => simp [hk] at hit
      | some k1 =>
        simp only [hk] at hit
        cases hit
        simp [keyOf, hk]
        cases h1 : (decodeOne it).id with
        | some i => simp [h1]
        | none =>
          simp only [keyOf, h1, Option.none_orElse] at hk
          simp [h1, hk]
  · intro fs u hu
    simp only [mkRecordEntries, List.mem_map] at hu
    obtain ⟨pr, _, hpr⟩ := hu
    cases hpr
    simp only [keyOf]
    cases h1 : (decodeOne pr.2).id with
    | some i => simp [h1]
    | none => cases h2 : (decodeOne pr.2).name <;> simp [h1, h2]
  · intro v h1 h2
    cases v with
    | arr items => exact absurd rfl (h1 items)
    | obj fs => exact absurd rfl (h2 fs)
    | null => rfl
    | bool b => rfl
    | num q => rfl
    | str s => rfl

/-- Witness for `enqueuePhysics_per_key` at a concrete batch. -/
theorem enqueuePhysics_per_key_witness :
    mget (enqueuePhysicsPending [] (.arr [.obj [("id", .str "a"), ("name", .str "x")]]) (some "D"))
        (Key.s "a") =
      ((mkArrayEntries [.obj [("id", .str "a"), ("name", .str "x")]] (some "D")).filter
          (fun u => keyOf u = some (Key.s "a"))).foldl
        (fun a u => some (mergeA (a.getD (seed u)) u))
        (mget ([] : Pending) (Key.s "a")) :=
  (enqueuePhysics_per_key [] (some "D") (Key.s "a")).1 [.obj [("id", .str "a"), ("name", .str "x")]]

/-- A scalar of the ring ℚ + ℚ·π: `a + b·π`.  The only irrational the
component produces is `Math.PI` in the degrees-to-radians conversion of
`applyOneUpdateTo` (source line 319); every scalar arising there is of
this form, and the representation is exact because π is irrational. -/
structure RVal where
  a : ℚ
  b : ℚ
deriving DecidableEq

/-- Embedding of a plain (JSON) number. -/
def RVal.ofRat (q : ℚ) : RVal := ⟨q, 0⟩

/-- `q * Math.PI`. -/
def RVal.mulPi (q : ℚ) : RVal := ⟨0, q⟩

/-- Division of an `RVal` by a rational constant. -/
def RVal.divQ (r : RVal) (d : ℚ) : RVal := ⟨r.a / d, r.b / d⟩

/-- `(x * Math.PI) / 180` — the conversion at source line 319. -/
def degToRad (x : ℚ) : RVal := (RVal.mulPi x).divQ 180

/-- Orientation state of a THREE `Object3D`, at the boundary the
component drives it: either a quaternion set directly
(`obj.quaternion.set` / `.copy`, lines 313/316) or the quaternion THREE
computes from an XYZ euler (`setRotationFromEuler`, lines 320/324) —
the euler-to-quaternion conversion itself lives in THREE and is kept
abstract as a constructor. -/
inductive Rot where
  | quat (x y z w : ℚ)
  | eulerXYZ (x y z : RVal)
deriving DecidableEq

/-- The state of one THREE `Object3D` at the boundary the component
reads and writes: name, type, parent link, transform, and the
`userData` layer tags consulted by the flush guard (lines 381–385). -/
structure Obj3D where
  name : String := ""
  typ : String := "Mesh"
  parent : Option Nat := none
  position : ℚ × ℚ × ℚ := (0, 0, 0)
  rot : Rot := .quat 0 0 0 1
  userDataLayer : Option String := none
  userDataConfigLayer : Option String := none
  matrixWorldNeedsUpdate : Bool := false
  matrixAutoUpdate : Bool := true
deriving DecidableEq

/-- One entry of `iso.objects` as the component reads it
(lines 264–271, 402–404, 434–435): an optional id, the THREE object
behind `entry.threeObj || entry.obj || entry` (`selfObj` models the
entry used as its own object; `none` throughout when the entry has no
object in the modelled store), and the `config` fields. -/
structure IsoEntry where
  id : Option Key := none
  threeObj : Option Nat := none
  obj : Option Nat := none
  selfObj : Option Nat := none
  configName : Option String := none
  configLayer : Option String := none
deriving DecidableEq

/-- The IsoCard instance as the component observes it: its object-entry
list and its THREE scene.  The scene is the traversal of the scene
graph in THREE depth-first order (the scene root first, as
`Object3D.traverse` and `getObjectByName` visit it), `none` when the
instance exposes no scene. -/
structure IsoInst where
  objects : List IsoEntry := []
  scene : Option (List Nat) := none

/-- The component instance: the THREE object store (object states by
identity), the IsoCard handle, the `objectIndex` and `pending` maps,
the requestAnimationFrame bookkeeping (`rafScheduled` is
`rafHandle !== null`; `queued` counts callbacks the browser holds for
the next frame), the `layerId` React state, and the messages passed to
`this.log` this cycle (each becomes a timestamped bounded log line via
`logPush`). -/
structure St where
  store : Nat → Obj3D
  iso : Option IsoInst := none
  objectIndex : List (Key × Nat) := []
  pending : Pending := []
  rafScheduled : Bool := false
  queued : Nat := 0
  layerId : String := "server_layer"
  emitted : List String := []

/-- `this.log(m)` records the message (timestamping and truncation are
applied by `logPush`). -/
def emit (st : St) (m : String) : St :=
  { st with emitted := st.emitted ++ [m] }

/-- `getThreeScene` (lines 250–253): the scene of the IsoCard instance,
if any. -/
def getThreeScene (st : St) : Option (List Nat) :=
  st.iso.bind (fun i => i.scene)

/-- `scene.getObjectByName(n)` — first object in traversal order whose
`name` equals `n`. -/
def goByName (st : St) (trav : List Nat) (n : String) : Option Nat :=
  trav.find? (fun i => (st.store i).name = n)

/-- `idOrName.replace(/^server_layer/, "")` (line 284). -/
def stripSL (s : String) : String :=
  if s.startsWith "server_layer" then s.drop 12 else s

/-- `rebuildObjectIndex` (lines 255–274): clear the index; if there is
no scene, stop; otherwise index every traversed object with a truthy
name under that name, then every `iso.objects` entry under its id and
under its truthy `config.name`, and log the index size. -/
def rebuildObjectIndex (st : St) : St :=
  match getThreeScene st with
  | none => { st with objectIndex := [] }
  | some trav =>
    let idx1 := trav.foldl (fun m i =>
      if (st.store i).name ≠ "" then mset m (Key.s (st.store i).name) i else m) []
    let idx2 :=
      match st.iso with
      | some iso =>
        iso.objects.foldl (fun m e =>
          let o := (e.threeObj <|> e.obj) <|> e.selfObj
          match o with
          | none => m
          | some oid =>
            let m := match e.id with
              | some i => mset m i oid
              | none => m
            match e.configName with
            | some nm => if nm ≠ "" then mset m (Key.s nm) oid else m
            | none => m) idx1
      | none => idx1
    emit { st with objectIndex := idx2 }
      ("Indexed " ++ toString idx2.length ++ " ids/names")

/-- `resolveObject` (lines 276–296): cached index hit; else, with no
scene, nothing; else, for string keys, scene lookup by the exact name
and then by the name with a leading "server_layer" stripped, caching a
hit under the original key; else a full index rebuild and a lookup in
the rebuilt index. -/
def resolveObject (st : St) (k : Key) : Option Nat × St :=
  match mget st.objectIndex k with
  | some o => (some o, st)
  | none =>
    match getThreeScene st with
    | none => (none, st)
    | some trav =>
      match k with
      | .s s =>
        match goByName st trav s <|> goByName st trav (stripSL s) with
        | some o => (some o, { st with objectIndex := mset st.objectIndex k o })
        | none =>
          let st2 := rebuildObjectIndex st
          (mget st2.objectIndex k, st2)
      | .n _ =>
        let st2 := rebuildObjectIndex st
        (mget st2.objectIndex k, st2)

/-- The group-parent redirection at the head of `applyOneUpdateTo`
(lines 300–303): apply to the parent when it is a Group with the same
name as the target. -/
def effTarget (store : Nat → Obj3D) (tid : Nat) : Nat :=
  match (store tid).parent with
  | some p =>
    if (store p).typ = "Group" ∧ (store p).name = (store tid).name then p else tid
  | none => tid

/-- The position branch of `applyOneUpdateTo` (lines 305–310):
`u.position` first, else the `pos` array, else unchanged. -/
def applyPos (o : Obj3D) (u : OneUpdate) : Obj3D :=
  match u.position, u.pos with
  | some p, _ => { o with position := p }
  | none, some p => { o with position := p }
  | none, none => o

/-- The orientation branch of `applyOneUpdateTo` (lines 312–325):
`u.rotation` as a quaternion first, else a 4-element `rot` as a
quaternion, else a 3-element `eulerDeg` converted degrees-to-radians as
an XYZ euler, else a 3-element `rot` as XYZ radians, else unchanged. -/
def applyRot (o : Obj3D) (u : OneUpdate) : Obj3D :=
  match u.rotation, u.rot, u.eulerDeg with
  | some (x, y, z, w), _, _ => { o with rot := .quat x y z w }
  | none, some [a, b, c, d], _ => { o with rot := .quat a b c d }
  | none, _, some [ex, ey, ez] =>
    { o with rot := .eulerXYZ (degToRad ex) (degToRad ey) (degToRad ez) }
  | none, some [rx, ry, rz], _ =>
    { o with rot := .eulerXYZ (.ofRat rx) (.ofRat ry) (.ofRat rz) }
  | _, _, _ => o

/-- `applyOneUpdateTo` (lines 299–333) on the object store: redirect to
a same-named Group parent, apply position then orientation, and set the
matrix flags (lines 327–328).  The calls into IsoCard
(`setTransform` / `onObjectTransformChanged`, lines 330–332) have no
modelled effect on the store. -/
def applyOneUpdateTo (store : Nat → Obj3D) (tid : Nat) (u : OneUpdate) : Nat → Obj3D :=
  let oid := effTarget store tid
  let o := applyRot (applyPos (store oid) u) u
  let o := { o with matrixWorldNeedsUpdate := true, matrixAutoUpdate := true }
  fun n => if n = oid then o else store n

/-- JS `||` chaining on possibly-empty strings: an absent or empty
string falls through. -/
def truthyStr : Option String → Option String
  | some s => if s = "" then none else some s
  | none => none

/-- The resolved layer tag of an object, as computed by the flush guard
(lines 381–385): `obj.userData.layer`, else the parent's
`userData.layer`, else `obj.userData.config.layer`, else "main". -/
def objLayerOf (st : St) (oid : Nat) : String :=
  let o := st.store oid
  ((truthyStr o.userDataLayer <|>
      truthyStr (o.parent.bind (fun p => (st.store p).userDataLayer))) <|>
    truthyStr o.userDataConfigLayer).getD "main"

/-- One iteration of the `flushPending` loop (lines 375–391): resolve
the key (which may mutate the index), skip on resolution failure, skip
when the effective layer (`u.layerId ?? this.state.layerId`) is truthy
and differs from the object's layer tag, otherwise apply the update. -/
def flushStep (st : St) (e : Key × OneUpdate) : St :=
  let r := resolveObject st e.1
  match r.1 with
  | none => r.2
  | some oid =>
    let st1 := r.2
    let mustLayer := e.2.layerId.getD st1.layerId
    if mustLayer ≠ "" ∧ objLayerOf st1 oid ≠ mustLayer then st1
    else { st1 with store := applyOneUpdateTo st1.store oid e.2 }

/-- `flushPending` (lines 369–396): an early return when the IsoCard
instance is gone or nothing is buffered; otherwise every buffered entry
is processed in insertion order and the buffer is cleared.  The
`renderScene` call and the applied-count log line have no modelled
state effect. -/
def flushC (st : St) : St :=
  if st.iso.isNone then st
  else if st.pending.isEmpty then st
  else
    let st1 := st.pending.foldl flushStep st
    { st1 with pending := [] }

theorem applyPos_rot (o : Obj3D) (u : OneUpdate) : (applyPos o u).rot = o.rot := by
  unfold applyPos; split <;> rfl

theorem applyRot_position (o : Obj3D) (u : OneUpdate) :
    (applyRot o u).position = o.position := by
  unfold applyRot; split <;> rfl

theorem applyPos_position (o : Obj3D) (u : OneUpdate) :
    (applyPos o u).position =
      (match u.position, u.pos with
       | some p, _ => p
       | none, some p => p
       | none, none => o.position) := by
  unfold applyPos; split <;> rfl

theorem applyRot_rot (o : Obj3D) (u : OneUpdate) :
    (applyRot o u).rot =
      (match u.rotation, u.rot, u.eulerDeg with
       | some (x, y, z, w), _, _ => Rot.quat x y z w
       | none, some [a, b, c, d], _ => Rot.quat a b c d
       | none, _, some [ex, ey, ez] =>
         Rot.eulerXYZ (degToRad ex) (degToRad ey) (degToRad ez)
       | none, some [rx, ry, rz], _ =>
         Rot.eulerXYZ (.ofRat rx) (.ofRat ry) (.ofRat rz)
       | _, _, _ => o.rot) := by
  unfold applyRot; split <;> rfl

/-- C5: `applyOneUpdateTo` accepts the tolerant update formats with the
claimed fixed precedence — on the object it writes (the target, or its
same-named Group parent), the position comes from the `position` object,
else the `pos` array, else is unchanged; the orientation comes from the
`rotation` quaternion, else a 4-element `rot` quaternion, else a
3-element `eulerDeg` converted degrees-to-radians in XYZ order, else a
3-element `rot` as XYZ radians, else is unchanged. -/
theorem applyOneUpdateTo_formats (store : Nat → Obj3D) (tid : Nat) (u : OneUpdate) :
    (applyOneUpdateTo store tid u (effTarget store tid)).position =
      (match u.position, u.pos with
       | some p, _ => p
       | none, some p => p
       | none, none => (store (effTarget store tid)).position)
    ∧ (applyOneUpdateTo store tid u (effTarget store tid)).rot =
      (match u.rotation, u.rot, u.eulerDeg with
       | some (x, y, z, w), _, _ => Rot.quat x y z w
       | none, some [a, b, c, d], _ => Rot.quat a b c d
       | none, _, some [ex, ey, ez] =>
         Rot.eulerXYZ (degToRad ex) (degToRad ey) (degToRad ez)
       | none, some [rx, ry, rz], _ =>
         Rot.eulerXYZ (.ofRat rx) (.ofRat ry) (.ofRat rz)
       | _, _, _ => (store (effTarget store tid)).rot) := by
  have h0 : applyOneUpdateTo store tid u (effTarget store tid) =
      { applyRot (applyPos (store (effTarget store tid)) u) u with
        matrixWorldNeedsUpdate := true, matrixAutoUpdate := true } := by
    unfold applyOneUpdateTo
    simp
  rw [h0]
  constructor
  · show (applyRot (applyPos (store (effTarget store tid)) u) u).position = _
    rw [applyRot_position, applyPos_position]
  · show (applyRot (applyPos (store (effTarget store tid)) u) u).rot = _
    rw [applyRot_rot, applyPos_rot]

theorem rebuild_store (st : St) : (rebuildObjectIndex st).store = st.store := by
  unfold rebuildObjectIndex emit
  split <;> rfl

theorem rebuild_layerId (st : St) : (rebuildObjectIndex st).layerId = st.layerId := by
  unfold rebuildObjectIndex emit
  split <;> rfl

theorem resolve_store (st : St) (k : Key) :
    ((resolveObject st k).2).store = st.store := by
  unfold resolveObject
  split
  · rfl
  · split
    · rfl
    · split
      · split
        · rfl
        · exact rebuild_store st
      · exact rebuild_store st

theorem resolve_layerId (st : St) (k : Key) :
    ((resolveObject st k).2).layerId = st.layerId := by
  unfold resolveObject
  split
  · rfl
  · split
    · rfl
    · split
      · split
        · rfl
        · exact rebuild_layerId st
      · exact rebuild_layerId st

theorem objLayerOf_congr (st1 st2 : St) (oid : Nat) (h : st1.store = st2.store) :
    objLayerOf st1 oid = objLayerOf st2 oid := by
  unfold objLayerOf
  rw [h]

/-- C3 (amended): an update whose effective layer (its `layerId`, else
the component's `layerId` state) is non-empty and differs from the
resolved object's layer tag is skipped — `applyOneUpdateTo` is not
reached and processing that entry leaves every object's state (in
particular its position and quaternion) unchanged.  Other buffered
updates in the same flush may still move the object (see the
counterexample), so the whole-flush invariance holds per entry, not per
object. -/
theorem flushStep_skips_mismatched_layer (st : St) (k : Key) (u : OneUpdate)
    (h : ∀ oid, (resolveObject st k).1 = some oid →
        u.layerId.getD st.layerId ≠ "" ∧
        objLayerOf st oid ≠ u.layerId.getD st.layerId) :
    (flushStep st (k, u)).store = st.store := by
  have hs : ((resolveObject st k).2).store = st.store := resolve_store st k
  have hl : ((resolveObject st k).2).layerId = st.layerId := resolve_layerId st k
  unfold flushStep
  cases hro : (resolveObject st k).1 with
  | none =>
    simp only [hro]
    exact hs
  | some oid =>
    simp only [hro]
    obtain ⟨h1, h2⟩ := h oid hro
    rw [if_pos]
    · exact hs
    · refine ⟨by rw [hl]; exact h1, ?_⟩
      rw [hl, objLayerOf_congr (resolveObject st k).2 st oid hs]
      exact h2

/-- The concrete state for the C3 counterexample: one object (id 1,
layer tag "main") indexed under both keys "a" and "b", with a buffered
update under "a" whose layer mismatches and one under "b" whose layer
matches and carries a position. -/
def stC3 : St :=
  { store := fun n => if n = 1 then { name := "ball", userDataLayer := some "main" } else {}
    iso := some { objects := [], scene := some [1] }
    objectIndex := [(Key.s "a", 1), (Key.s "b", 1)]
    pending := [(Key.s "a", { layerId := some "L2" }),
                (Key.s "b", { layerId := some "main", position := some (5, 5, 5) })]
    layerId := "server_layer" }

/-- C3 as stated is false: the update buffered under "a" resolves to
object 1 and is skipped by the layer guard, yet the flush does change
object 1's position, because the update buffered under "b" resolves to
the same object and is applied.  "The object's position and quaternion
are left unchanged by the flush" therefore fails for a skipped update
when another buffered update aliases the same object. -/
theorem flush_moves_object_of_skipped_update :
    (resolveObject stC3 (Key.s "a")).1 = some 1
    ∧ (({ layerId := some "L2" } : OneUpdate).layerId.getD stC3.layerId ≠ ""
        ∧ objLayerOf stC3 1 ≠ ({ layerId := some "L2" } : OneUpdate).layerId.getD stC3.layerId)
    ∧ ((flushC stC3).store 1).position ≠ (stC3.store 1).position := by
  refine ⟨rfl, by decide, by decide⟩

/-- Witness for `flushStep_skips_mismatched_layer`: processing the
mismatched entry alone leaves the store unchanged. -/
theorem flushStep_skips_mismatched_layer_witness :
    (flushStep stC3 (Key.s "a", { layerId := some "L2" })).store = stC3.store :=
  flushStep_skips_mismatched_layer stC3 (Key.s "a") { layerId := some "L2" }
    (fun oid h => by cases Option.some.inj h; decide)

/-- C7: `resolveObject` follows the claimed fallback chain — a cached
index hit is returned as-is; otherwise (scene present) a string key is
looked up in the scene by the exact name and then by the name with a
leading "server_layer" prefix stripped, a hit being cached under the
original key; otherwise (both name lookups miss, or the key is a
number) the index is rebuilt from the scene graph and the IsoCard
object list and the rebuilt index's entry for the key — possibly
nothing — is returned. -/
theorem resolveObject_spec (st : St) (k : Key) :
    (∀ o, mget st.objectIndex k = some o → resolveObject st k = (some o, st))
    ∧ (mget st.objectIndex k = none → getThreeScene st = none →
        resolveObject st k = (none, st))
    ∧ (∀ s trav o, k = .s s → mget st.objectIndex k = none →
        getThreeScene st = some trav →
        (goByName st trav s <|> goByName st trav (stripSL s)) = some o →
        resolveObject st k = (some o, { st with objectIndex := mset st.objectIndex k o }))
    ∧ (∀ s trav, k = .s s → mget st.objectIndex k = none →
        getThreeScene st = some trav →
        (goByName st trav s <|> goByName st trav (stripSL s)) = none →
        resolveObject st k =
          (mget (rebuildObjectIndex st).objectIndex k, rebuildObjectIndex st))
    ∧ (∀ q trav, k = .n q → mget st.objectIndex k = none →
        getThreeScene st = some trav →
        resolveObject st k =
          (mget (rebuildObjectIndex st).objectIndex k, rebuildObjectIndex st)) := by
  refine ⟨?_, ?_, ?_, ?_, ?_⟩
  · intro o h
    unfold resolveObject
    rw [h]
  · intro h1 h2
    unfold resolveObject
    rw [h1, h2]
  · intro s trav o hk h1 h2 h3
    subst hk
    unfold resolveObject
    simp only [h1, h2, h3]
  · intro s trav hk h1 h2 h3
    subst hk
    unfold resolveObject
    simp only [h1, h2, h3]
  · intro q trav hk h1 h2
    subst hk
    unfold resolveObject
    rw [h1, h2]

/-- Concrete state for the C7 witness: one cached key, and an uncached
name resolvable through the scene. -/
def stC7 : St :=
  { store := fun n => if n = 1 then { name := "ball" } else {}
    iso := some { objects := [], scene := some [0, 1] }
    objectIndex := [(Key.s "cached", 5)] }

/-- Witness for `resolveObject_spec`: the cached branch and the
scene-name branch, each at a concrete input. -/
theorem resolveObject_spec_witness :
    resolveObject stC7 (Key.s "cached") = (some 5, stC7)
    ∧ resolveObject stC7 (Key.s "ball") =
        (some 1, { stC7 with objectIndex := mset stC7.objectIndex (Key.s "ball") 1 }) :=
  ⟨(resolveObject_spec stC7 (Key.s "cached")).1 5 rfl,
   (resolveObject_spec stC7 (Key.s "ball")).2.2.1 "ball" [0, 1] 1 rfl rfl rfl rfl⟩

/-- C9: once the IsoCard instance exists, a flush always leaves the
pending buffer empty (unresolvable or layer-mismatched updates are
discarded with the rest); with the instance gone, `flushPending`
returns early and the buffered updates are retained. -/
theorem flushPending_drains (st : St) :
    (st.iso.isSome → (flushC st).pending = [])
    ∧ (st.iso.isNone → flushC st = st) := by
  constructor
  · intro hsome
    unfold flushC
    have hn : st.iso.isNone = false := by
      cases h : st.iso with
      | none => rw [h] at hsome; simp at hsome
      | some i => simp [h]
    rw [hn]
    simp only [Bool.false_eq_true, if_false]
    by_cases he : st.pending.isEmpty
    · rw [if_pos he]
      exact List.isEmpty_iff.mp he
    · rw [if_neg he]
  · intro hnone
    unfold flushC
    rw [hnone]
    simp

/-- Witness for `flushPending_drains`: a flush with a live instance
empties the buffer; a flush with no instance is the identity. -/
theorem flushPending_drains_witness :
    ((stC3.iso.isSome = true) ∧ (flushC stC3).pending = [])
    ∧ (({ stC3 with iso := none } : St).iso.isNone = true
        ∧ flushC { stC3 with iso := none } = { stC3 with iso := none }) :=
  ⟨⟨rfl, (flushPending_drains stC3).1 rfl⟩,
   ⟨rfl, (flushPending_drains { stC3 with iso := none }).2 rfl⟩⟩

mutual

/-- `stripPhysicsDeep` (lines 40–41):
`JSON.parse(JSON.stringify(obj, (k, v) => k === "physics" ? undefined : v))`
— the replacer drops every object field named "physics" at any depth
(array indices are never "physics", so array elements survive and are
stripped recursively). -/
def stripPhysicsDeep : JValue → JValue
  | .null => .null
  | .bool b => .bool b
  | .num q => .num q
  | .str s => .str s
  | .arr xs => .arr (stripArr xs)
  | .obj fs => .obj (stripObj fs)

/-- Recursive stripping of an array's elements. -/
def stripArr : List JValue → List JValue
  | [] => []
  | x :: xs => stripPhysicsDeep x :: stripArr xs

/-- Recursive stripping of an object's fields, dropping "physics". -/
def stripObj : List (String × JValue) → List (String × JValue)
  | [] => []
  | (k, v) :: fs =>
    if k = "physics" then stripObj fs else (k, stripPhysicsDeep v) :: stripObj fs

end

mutual

/-- Whether a value contains an object field named "physics" at any
depth.  Stated only to express what `stripPhysicsDeep` removes. -/
def hasPhys : JValue → Bool
  | .arr xs => hasPhysArr xs
  | .obj fs => hasPhysObj fs
  | _ => false

/-- `hasPhys` over the elements of an array. -/
def hasPhysArr : List JValue → Bool
  | [] => false
  | x :: xs => hasPhys x || hasPhysArr xs

/-- `hasPhys` over the fields of an object. -/
def hasPhysObj : List (String × JValue) → Bool
  | [] => false
  | (k, v) :: fs => k = "physics" || hasPhys v || hasPhysObj fs

end

/-- `ensureSceneArray` (lines 43–44): an array as-is, else the value's
`scene` field when that is an array, else a singleton. -/
def ensureSceneArray (sceneLike : JValue) : List JValue :=
  match sceneLike with
  | .arr xs => xs
  | v =>
    match jget v "scene" with
    | some (.arr xs) => xs
    | _ => [v]

/-- The own enumerable string-keyed properties a JS object spread
`{ ...o }` copies: an object's fields; an array's or string's indexed
elements; nothing for primitives. -/
def jsSpreadFields : JValue → List (String × JValue)
  | .obj fs => fs
  | .arr xs => xs.enum.map (fun p => (toString p.1, p.2))
  | .str s => s.toList.enum.map (fun p => (toString p.1, .str (String.singleton p.2)))
  | _ => []

/-- `{ ...o, layer: layerId }` (line 428): spread plus one explicit
field, which replaces an existing `layer` in place or is appended. -/
def jsSetField (o : JValue) (k : String) (v : JValue) : JValue :=
  .obj (mset (jsSpreadFields o) k v)

/-- The normalized payload handed to `addObjectsToLayer` (lines
421–428): deep-strip "physics", wrap into an array, and force every
object into the viewing layer. -/
def scenePayload (lid : String) (d : JValue) : List JValue :=
  (ensureSceneArray (stripPhysicsDeep d)).map (fun o => jsSetField o "layer" (.str lid))

/-- `clearLayer` (lines 399–412): collect the entries whose
`config.layer` equals the layer, then remove each through the external
`removeObject(e.id)`, modelled as removal of the entries carrying that
id. -/
def clearLayer (entries : List IsoEntry) (lid : String) : List IsoEntry :=
  let toRemove := entries.filter (fun e => e.configLayer = some lid)
  toRemove.foldl (fun os e => os.filter (fun e2 => ¬ e2.id = e.id)) entries

/-- The IsoCard entry the external `addObjectsToLayer` creates for one
payload object, modelled at the boundary the component reads back: the
`config` fields are the payload object's; the ids and THREE objects
IsoCard assigns internally are outside the model. -/
def mkAddedEntry (o : JValue) : IsoEntry :=
  { configName := jStr? (jget o "name"), configLayer := jStr? (jget o "layer") }

/-- `handleSceneState` (lines 415–446): with no IsoCard instance, only
a log line; otherwise clear the current layer, build the normalized
payload, add it, propagate `config.layer || layerId` onto
`userData.layer` of every entry owning a THREE object (lines 433–437),
rebuild the index, and log. -/
def handleSceneStateC (st : St) (sceneData : JValue) : St :=
  match st.iso with
  | none => emit st "IsoCard not ready"
  | some iso =>
    let lid := st.layerId
    let removedCount := (iso.objects.filter (fun e => e.configLayer = some lid)).length
    let objects1 := clearLayer iso.objects lid
    let st1 :=
      if removedCount ≠ 0 then
        emit st ("Cleared " ++ toString removedCount ++ " object(s) from layer \"" ++ lid ++ "\"")
      else st
    let payload := scenePayload lid sceneData
    let objects2 := objects1 ++ payload.map mkAddedEntry
    let store2 := objects2.foldl (fun s e =>
      match e.threeObj with
      | some t => fun n =>
        if n = t then { s t with userDataLayer := some ((truthyStr e.configLayer).getD lid) }
        else s n
      | none => s) st1.store
    let st2 := rebuildObjectIndex
      { st1 with iso := some { iso with objects := objects2 }, store := store2 }
    emit st2 ("Scene loaded → layer \"" ++ lid ++ "\" (objects: " ++ toString payload.length ++ ")")

/-- A string-valued JSON value. -/
def jStrVal? : JValue → Option String
  | .str s => some s
  | _ => none

/-- `requestAnimationFrame` scheduling in `enqueuePhysics` (lines
361–366): a callback is registered only when none is pending. -/
def schedule (st : St) : St :=
  if st.rafScheduled then st
  else { st with rafScheduled := true, queued := st.queued + 1 }

/-- `enqueuePhysics` (lines 336–367) on the component state: buffer the
batch (array or record form; anything else returns before the
scheduling block) and schedule a flush.  The default layer argument is
`msg.layerId ?? msg.layer`, a string under the declared types. -/
def enqueuePhysicsC (st : St) (objects : JValue) (d : Option JValue) : St :=
  match objects with
  | .arr _ =>
    schedule { st with
      pending := enqueuePhysicsPending st.pending objects (d.bind jStrVal?) }
  | .obj _ =>
    schedule { st with
      pending := enqueuePhysicsPending st.pending objects (d.bind jStrVal?) }
  | _ => st

/-- Display coercion for JS template strings (log text only; array
display is approximated — no claim depends on this text). -/
def jDisplay : JValue → String
  | .null => "null"
  | .bool b => if b then "true" else "false"
  | .num q => toString q
  | .str s => s
  | .arr _ => ""
  | .obj _ => "[object Object]"

/-- `msg.message ?? "(no message)"` of the ERROR branch (line 242). -/
def errText (m : JValue) : String :=
  match jnn (jget m "message") with
  | some v => jDisplay v
  | none => "(no message)"

/-- The socket payload as `onMessage` receives it: whitespace-only text
(silently ignored, line 222), text on which `JSON.parse` throws (the
catch block, lines 244–246), or a parsed JSON value. -/
inductive Inp where
  | emptyText
  | unparseable (err : String)
  | parsed (m : JValue)

/-- `onMessage` (lines 219–247): parse-failure logs one line; a missing
or falsy `type` does nothing; a truthy type logs "Received" and then
dispatches SCENE_STATE to scene ingestion of `msg.scene ?? msg`, the
three physics types to `enqueuePhysics` of
`msg.objects ?? msg.payload ?? msg.data ?? msg` with
`msg.layerId ?? msg.layer` as default layer, ERROR to a log line, and
anything else nowhere. -/
def processMessage (st : St) : Inp → St
  | .emptyText => st
  | .unparseable err => emit st ("Message parse failed: " ++ err)
  | .parsed m =>
    match jget m "type" with
    | none => st
    | some (.str s) =>
      if s = "" then st
      else
        let st1 := emit st ("Received: " ++ s)
        if s = "SCENE_STATE" then
          handleSceneStateC st1 ((jnn (jget m "scene")).getD m)
        else if s = "PHYSICS_UPDATE" ∨ s = "PHYSICS_TICK" ∨ s = "TRANSFORMS" then
          enqueuePhysicsC st1
            ((jnn (jget m "objects") <|> (jnn (jget m "payload") <|> jnn (jget m "data"))).getD m)
            (jnn (jget m "layerId") <|> jnn (jget m "layer"))
        else if s = "ERROR" then
          emit st1 ("Server error: " ++ errText m)
        else st1
    | some t => if jFalsy t then st else emit st ("Received: " ++ jDisplay t)

/-- `arr.slice(-n)`: the last `n` elements. -/
def sliceLast {α : Type} (n : Nat) (l : List α) : List α :=
  l.drop (l.length - n)

/-- One log line: ISO timestamp, em dash, message (line 105). -/
def jsLogLine (now m : String) : String := now ++ " — " ++ m

/-- The component's `log` state update (lines 104–105): append one
timestamped line and keep the most recent 400. -/
def logPush (now : String) (l : List String) (m : String) : List String :=
  sliceLast 400 (l ++ [jsLogLine now m])

/-- The browser invariant tying `rafHandle` to the number of callbacks
registered for the next animation frame. -/
def RafInv (st : St) : Prop :=
  st.queued = if st.rafScheduled then 1 else 0

/-- The browser runs each registered frame callback; the component's
callback (lines 362–365) first nulls `rafHandle`, then flushes. -/
def runCallbacks : Nat → St → St
  | 0, st => st
  | n + 1, st => runCallbacks n (flushC { st with rafScheduled := false })

/-- An animation frame: the registered callbacks run and the browser's
queue for the frame empties. -/
def runFrame (st : St) : St :=
  runCallbacks st.queued { st with queued := 0 }

/-- C8: the log update appends exactly one timestamped line and keeps
the most recent 400 — the result never exceeds 400 lines, is a suffix
of the old log with the new line appended (so retained lines are
unmodified), and ends with the new line. -/
theorem log_bounded_append_only (now : String) (l : List String) (m : String) :
    (logPush now l m).length ≤ 400
    ∧ List.IsSuffix (logPush now l m) (l ++ [jsLogLine now m])
    ∧ (logPush now l m).getLast? = some (jsLogLine now m) := by
  refine ⟨?_, ?_, ?_⟩
  · unfold logPush sliceLast
    rw [List.length_drop]
    omega
  · unfold logPush sliceLast
    exact List.drop_suffix _ _
  · unfold logPush sliceLast
    have hle : (l ++ [jsLogLine now m]).length - 400 ≤ l.length := by
      rw [List.length_append]
      simp only [List.length_singleton]
      omega
    rw [List.drop_append_of_le_length hle]
    exact List.getLast?_concat _

theorem foldl_filter {α β : Type} (p : β → α → Bool) (xs : List β) (l : List α) :
    xs.foldl (fun os e => os.filter (p e)) l
      = l.filter (fun a => xs.all (fun e => p e a)) := by
  induction xs generalizing l with
  | nil => simp
  | cons x xs ih =>
    simp only [List.foldl_cons, ih, List.filter_filter, List.all_cons]
    apply List.filter_congr
    intro a _
    simp [Bool.and_comm]

/-- With ids identifying entries, `clearLayer` removes exactly the
entries whose `config.layer` equals the layer. -/
theorem clearLayer_eq_filter (entries : List IsoEntry) (lid : String)
    (hinj : ∀ e1 e2, e1 ∈ entries → e2 ∈ entries → e1.id = e2.id → e1 = e2) :
    clearLayer entries lid
      = entries.filter (fun e => ¬ e.configLayer = some lid) := by
  unfold clearLayer
  rw [foldl_filter]
  apply List.filter_congr
  intro e2 he2
  by_cases hcl : e2.configLayer = some lid
  · have hmem : e2 ∈ entries.filter (fun e => e.configLayer = some lid) :=
      List.mem_filter.mpr ⟨he2, by simp [hcl]⟩
    have hR : decide (¬ e2.configLayer = some lid) = false := by simp [hcl]
    have hL : (entries.filter (fun e => e.configLayer = some lid)).all
        (fun e => decide (¬ e2.id = e.id)) = false := by
      rw [Bool.eq_false_iff]
      intro hall
      have := List.all_eq_true.mp hall e2 hmem
      simp at this
    rw [hR, hL]
  · have hR : decide (¬ e2.configLayer = some lid) = true := by simp [hcl]
    have hL : (entries.filter (fun e => e.configLayer = some lid)).all
        (fun e => decide (¬ e2.id = e.id)) = true := by
      apply List.all_eq_true.mpr
      intro e hef
      have hmem := List.mem_filter.mp hef
      simp only [decide_eq_true_eq]
      intro hid
      exact hcl (by rw [hinj e2 e he2 hmem.1 hid]; simpa using hmem.2)
    rw [hR, hL]

theorem strip_no_physics_aux :
    ∀ (n : Nat) (v : JValue), sizeOf v ≤ n → hasPhys (stripPhysicsDeep v) = false := by
  intro n
  induction n using Nat.strong_induction_on with
  | _ n ih =>
    intro v hv
    cases v with
    | null => rfl
    | bool b => rfl
    | num q => rfl
    | str s => rfl
    | arr xs =>
      simp only [JValue.arr.sizeOf_spec] at hv
      have harr : ∀ ys : List JValue, sizeOf ys ≤ sizeOf xs →
          hasPhysArr (stripArr ys) = false := by
        intro ys
        induction ys with
        | nil => intro _; rfl
        | cons y ys ihy =>
          intro hys
          simp only [List.cons.sizeOf_spec] at hys
          have h1 : sizeOf y < n := by omega
          have h2 : hasPhys (stripPhysicsDeep y) = false := ih (sizeOf y) h1 y le_rfl
          have h3 : hasPhysArr (stripArr ys) = false := ihy (by omega)
          simp [stripArr, hasPhysArr, h2, h3]
      simp only [stripPhysicsDeep, hasPhys]
      exact harr xs le_rfl
    | obj fs =>
      simp only [JValue.obj.sizeOf_spec] at hv
      have hobj : ∀ gs : List (String × JValue), sizeOf gs ≤ sizeOf fs →
          hasPhysObj (stripObj gs) = false := by
        intro gs
        induction gs with
        | nil => intro _; rfl
        | cons g gs ihg =>
          intro hgs
          obtain ⟨k, v2⟩ := g
          simp only [List.cons.sizeOf_spec, Prod.mk.sizeOf_spec] at hgs
          have h3 : hasPhysObj (stripObj gs) = false := ihg (by omega)
          by_cases hk : k = "physics"
          · simp [stripObj, hk, h3]
          · have h1 : sizeOf v2 < n := by omega
            have h2 : hasPhys (stripPhysicsDeep v2) = false := ih (sizeOf v2) h1 v2 le_rfl
            simp [stripObj, hk, hasPhysObj, h2, h3]
      simp only [stripPhysicsDeep, hasPhys]
      exact hobj fs le_rfl

/-- `stripPhysicsDeep` leaves no "physics" field at any depth. -/
theorem strip_no_physics (v : JValue) : hasPhys (stripPhysicsDeep v) = false :=
  strip_no_physics_aux (sizeOf v) v le_rfl

theorem rebuild_iso (st : St) : (rebuildObjectIndex st).iso = st.iso := by
  unfold rebuildObjectIndex emit
  split <;> rfl

/-- C10: scene ingestion normalizes every object into the viewing
layer — the entries of the current layer are removed (exactly those,
when ids identify entries), the payload is the deep-stripped scene
wrapped into an array with `layer` forced to the component's `layerId`
on every element, the new object list is the cleared list plus the
added payload, no "physics" field survives at any depth, and every
ingested object carries the component's `layerId`. -/
theorem handleSceneState_normalizes (st : St) (iso : IsoInst) (d : JValue)
    (hiso : st.iso = some iso)
    (hinj : ∀ e1 e2, e1 ∈ iso.objects → e2 ∈ iso.objects → e1.id = e2.id → e1 = e2) :
    clearLayer iso.objects st.layerId
        = iso.objects.filter (fun e => ¬ e.configLayer = some st.layerId)
    ∧ (handleSceneStateC st d).iso.map (fun i => i.objects)
        = some (clearLayer iso.objects st.layerId
            ++ (scenePayload st.layerId d).map mkAddedEntry)
    ∧ hasPhys (stripPhysicsDeep d) = false
    ∧ scenePayload st.layerId d
        = (ensureSceneArray (stripPhysicsDeep d)).map
            (fun o => jsSetField o "layer" (.str st.layerId))
    ∧ (∀ xs, ensureSceneArray (.arr xs) = xs)
    ∧ (∀ o, o ∈ scenePayload st.layerId d → jget o "layer" = some (.str st.layerId)) := by
  refine ⟨clearLayer_eq_filter _ _ hinj, ?_, strip_no_physics d, rfl, fun xs => rfl, ?_⟩
  · unfold handleSceneStateC
    rw [hiso]
    show (emit (rebuildObjectIndex _) _).iso.map _ = _
    simp only [emit, rebuild_iso]
    rfl
  · intro o ho
    simp only [scenePayload, List.mem_map] at ho
    obtain ⟨o2, _, rfl⟩ := ho
    show mget (mset (jsSpreadFields o2) "layer" (JValue.str st.layerId)) "layer"
      = some (JValue.str st.layerId)
    rw [mget_mset]
    simp

/-- Concrete instance/state/payload for the C10 witness. -/
def isoC10 : IsoInst :=
  { objects := [{ id := some (.n 1), configLayer := some "server_layer" }], scene := some [] }

/-- Component state for the C10 witness. -/
def stC10 : St := { store := fun _ => {}, iso := some isoC10, layerId := "server_layer" }

/-- Payload for the C10 witness: carries a "physics" field and no
array wrapper. -/
def dC10 : JValue := .obj [("physics", .null), ("name", .str "ball")]

/-- Witness for `handleSceneState_normalizes` at a concrete scene. -/
theorem handleSceneState_normalizes_witness :
    clearLayer isoC10.objects stC10.layerId
        = isoC10.objects.filter (fun e => ¬ e.configLayer = some stC10.layerId)
    ∧ (handleSceneStateC stC10 dC10).iso.map (fun i => i.objects)
        = some (clearLayer isoC10.objects stC10.layerId
            ++ (scenePayload stC10.layerId dC10).map mkAddedEntry)
    ∧ hasPhys (stripPhysicsDeep dC10) = false
    ∧ scenePayload stC10.layerId dC10
        = (ensureSceneArray (stripPhysicsDeep dC10)).map
            (fun o => jsSetField o "layer" (.str stC10.layerId))
    ∧ (∀ xs, ensureSceneArray (.arr xs) = xs)
    ∧ (∀ o, o ∈ scenePayload stC10.layerId dC10 →
        jget o "layer" = some (.str stC10.layerId)) :=
  handleSceneState_normalizes stC10 isoC10 dC10 rfl
    (fun e1 e2 h1 h2 _ => by
      rw [List.mem_singleton.mp h1, List.mem_singleton.mp h2])

/-- Equality of the buffering/scene/index state of two component
states, ignoring the log: used to state "no buffering and no scene
change". -/
def SameCore (st1 st2 : St) : Prop :=
  st1.pending = st2.pending ∧ st1.iso = st2.iso ∧ st1.store = st2.store
  ∧ st1.objectIndex = st2.objectIndex ∧ st1.rafScheduled = st2.rafScheduled
  ∧ st1.queued = st2.queued

/-- C6: a socket payload whose text fails `JSON.parse` only produces
one "Message parse failed" log message; the pending buffer, the object
index, the IsoCard object list and the object store are untouched. -/
theorem onMessage_parse_failure (st : St) (err : String) :
    processMessage st (.unparseable err)
        = { st with emitted := st.emitted ++ ["Message parse failed: " ++ err] }
    ∧ SameCore (processMessage st (.unparseable err)) st :=
  ⟨rfl, rfl, rfl, rfl, rfl, rfl, rfl⟩

/-- C4: `onMessage` dispatches exactly the consumed message types —
PHYSICS_UPDATE, PHYSICS_TICK and TRANSFORMS are handled by one and the
same enqueue of `msg.objects ?? msg.payload ?? msg.data ?? msg` with
`msg.layerId ?? msg.layer` as default layer; SCENE_STATE ingests
`msg.scene ?? msg`; ERROR only logs; a message with no `type`, a falsy
or non-string `type`, or any other type string changes no buffering,
scene, index or scheduling state. -/
theorem onMessage_dispatch (m : JValue) (st : St) :
    (∀ s, (s = "PHYSICS_UPDATE" ∨ s = "PHYSICS_TICK" ∨ s = "TRANSFORMS") →
        jget m "type" = some (.str s) →
        processMessage st (.parsed m) =
          enqueuePhysicsC (emit st ("Received: " ++ s))
            ((jnn (jget m "objects") <|> (jnn (jget m "payload") <|> jnn (jget m "data"))).getD m)
            (jnn (jget m "layerId") <|> jnn (jget m "layer")))
    ∧ (jget m "type" = some (.str "SCENE_STATE") →
        processMessage st (.parsed m) =
          handleSceneStateC (emit st "Received: SCENE_STATE") ((jnn (jget m "scene")).getD m))
    ∧ (jget m "type" = some (.str "ERROR") →
        processMessage st (.parsed m) =
          emit (emit st "Received: ERROR") ("Server error: " ++ errText m)
        ∧ SameCore (processMessage st (.parsed m)) st)
    ∧ (jget m "type" = none → processMessage st (.parsed m) = st)
    ∧ (∀ s, jget m "type" = some (.str s) →
        s ≠ "SCENE_STATE" → s ≠ "PHYSICS_UPDATE" → s ≠ "PHYSICS_TICK" → s ≠ "TRANSFORMS" →
        s ≠ "ERROR" → SameCore (processMessage st (.parsed m)) st)
    ∧ (∀ t, jget m "type" = some t → (∀ s2, t ≠ .str s2) →
        SameCore (processMessage st (.parsed m)) st) := by
  refine ⟨?_, ?_, ?_, ?_, ?_, ?_⟩
  · intro s hs ht
    rcases hs with rfl | rfl | rfl <;> simp [processMessage, ht]
  · intro ht
    simp [processMessage, ht]
  · intro ht
    constructor
    · simp [processMessage, ht]
    · simp [processMessage, ht, SameCore, emit]
  · intro ht
    simp [processMessage, ht]
  · intro s ht h1 h2 h3 h4 h5
    by_cases h0 : s = ""
    · subst h0
      simp [processMessage, ht, SameCore]
    · simp [processMessage, ht, h0, h1, h2, h3, h4, h5, SameCore, emit]
  · intro t ht hns
    cases t with
    | str s2 => exact absurd rfl (hns s2)
    | null => simp [processMessage, ht, SameCore, jFalsy]
    | bool b => cases b <;> simp [processMessage, ht, SameCore, emit, jFalsy]
    | num q =>
      by_cases hq : q = 0 <;> simp [processMessage, ht, SameCore, emit, jFalsy, hq]
    | arr xs => simp [processMessage, ht, SameCore, emit, jFalsy]
    | obj fs => simp [processMessage, ht, SameCore, emit, jFalsy]

/-- Message for the C4 witness: a TRANSFORMS batch with a layer. -/
def mC4 : JValue :=
  .obj [("type", .str "TRANSFORMS"),
        ("objects", .arr [.obj [("id", .str "a"), ("pos", .arr [.num 1, .num 2, .num 3])]]),
        ("layerId", .str "server_layer")]

/-- Witness for `onMessage_dispatch`: the TRANSFORMS branch at a
concrete message and state. -/
theorem onMessage_dispatch_witness :
    processMessage stC10 (.parsed mC4) =
      enqueuePhysicsC (emit stC10 ("Received: " ++ "TRANSFORMS"))
        ((jnn (jget mC4 "objects") <|>
            (jnn (jget mC4 "payload") <|> jnn (jget mC4 "data"))).getD mC4)
        (jnn (jget mC4 "layerId") <|> jnn (jget mC4 "layer")) :=
  (onMessage_dispatch mC4 stC10).1 "TRANSFORMS" (Or.inr (Or.inr rfl)) rfl

theorem enqueuePhysicsC_RafInv (s : St) (c : JValue × Option JValue)
    (hs : RafInv s) : RafInv (enqueuePhysicsC s c.1 c.2) := by
  unfold RafInv at *
  cases c.1 <;> simp only [enqueuePhysicsC, schedule] <;>
    first
      | exact hs
      | (by_cases hr : s.rafScheduled <;> simp_all)

/-- C2: buffered updates are applied at most once per animation frame —
starting from the browser invariant (`rafHandle` is set exactly when
one frame callback is registered), any number of `enqueuePhysics` calls
preserves the invariant and leaves at most one registered callback, so
the next animation frame runs `flushPending` at most once, and the
state `flushPending` runs in has a null `rafHandle` (the callback nulls
it first). -/
theorem coalesce_once_per_frame (st : St) (calls : List (JValue × Option JValue))
    (h : RafInv st) :
    RafInv (calls.foldl (fun s c => enqueuePhysicsC s c.1 c.2) st)
    ∧ (calls.foldl (fun s c => enqueuePhysicsC s c.1 c.2) st).queued ≤ 1
    ∧ runFrame (calls.foldl (fun s c => enqueuePhysicsC s c.1 c.2) st)
      = (if (calls.foldl (fun s c => enqueuePhysicsC s c.1 c.2) st).rafScheduled then
          flushC { calls.foldl (fun s c => enqueuePhysicsC s c.1 c.2) st with
            rafScheduled := false, queued := 0 }
        else calls.foldl (fun s c => enqueuePhysicsC s c.1 c.2) st) := by
  have hfold : ∀ (cs : List (JValue × Option JValue)) (s : St), RafInv s →
      RafInv (cs.foldl (fun s c => enqueuePhysicsC s c.1 c.2) s) := by
    intro cs
    induction cs with
    | nil => intro s hs; exact hs
    | cons c cs ih => intro s hs; exact ih _ (enqueuePhysicsC_RafInv s c hs)
  have h1 := hfold calls st h
  refine ⟨h1, ?_, ?_⟩
  · unfold RafInv at h1
    rw [h1]
    split <;> omega
  · unfold RafInv at h1
    cases hsch : (calls.foldl (fun s c => enqueuePhysicsC s c.1 c.2) st).rafScheduled with
    | false =>
      rw [hsch] at h1
      simp only [if_false, Bool.false_eq_true] at h1 ⊢
      unfold runFrame
      rw [h1]
      show runCallbacks 0 _ = _
      unfold runCallbacks
      calc ({ calls.foldl (fun s c => enqueuePhysicsC s c.1 c.2) st with queued := 0 } : St)
          = { calls.foldl (fun s c => enqueuePhysicsC s c.1 c.2) st with
              queued := (calls.foldl (fun s c => enqueuePhysicsC s c.1 c.2) st).queued } := by
            rw [h1]
        _ = calls.foldl (fun s c => enqueuePhysicsC s c.1 c.2) st := rfl
    | true =>
      rw [hsch] at h1
      simp only [if_true] at h1 ⊢
      unfold runFrame
      rw [h1]
      rfl

/-- Witness for `coalesce_once_per_frame`: two enqueues from an idle
state schedule exactly one flush for the next frame. -/
theorem coalesce_once_per_frame_witness :
    RafInv stC10
    ∧ (RafInv ([((.arr [] : JValue), (none : Option JValue)),
          ((.arr [] : JValue), (none : Option JValue))].foldl
            (fun s c => enqueuePhysicsC s c.1 c.2) stC10)
      ∧ ([((.arr [] : JValue), (none : Option JValue)),
          ((.arr [] : JValue), (none : Option JValue))].foldl
            (fun s c => enqueuePhysicsC s c.1 c.2) stC10).queued ≤ 1
      ∧ runFrame ([((.arr [] : JValue), (none : Option JValue)),
          ((.arr [] : JValue), (none : Option JValue))].foldl
            (fun s c => enqueuePhysicsC s c.1 c.2) stC10)
        = (if ([((.arr [] : JValue), (none : Option JValue)),
              ((.arr [] : JValue), (none : Option JValue))].foldl
                (fun s c => enqueuePhysicsC s c.1 c.2) stC10).rafScheduled then
            flushC { [((.arr [] : JValue), (none : Option JValue)),
              ((.arr [] : JValue), (none : Option JValue))].foldl
                (fun s c => enqueuePhysicsC s c.1 c.2) stC10 with
              rafScheduled := false, queued := 0 }
          else [((.arr [] : JValue), (none : Option JValue)),
              ((.arr [] : JValue), (none : Option JValue))].foldl
                (fun s c => enqueuePhysicsC s c.1 c.2) stC10)) :=
  ⟨rfl, coalesce_once_per_frame stC10
    [((.arr [] : JValue), (none : Option JValue)),
     ((.arr [] : JValue), (none : Option JValue))] rfl⟩
